import Mathlib

/-!
Verification of the minimal metabolic-reconstruction data model and its
export contract, as described by the repository's design specification
(spec.md) and exhibited by the example SBML output file shipped with the
tutorial notebook.  The modeling library demonstrated by the notebook is
not vendored in the repository, so every operational definition below is
modelled from the specification text (sections 3 to 7) and cross-checked
against the example output document.
-/

set_option autoImplicit false

namespace ReconSpec

/-- Modelled from the spec: the Annotation Store (section 4.1) of the
demonstrated modeling library, which is not vendored under the repository.
It maps a namespace key to one or more external identifier strings; key
order is insertion order and value order for multi-valued keys is
preserved. -/
abbrev AnnotationStore := List (String × List String)

/-- Modelled from the spec: a store is well formed when every key is
associated with one or more values (section 3, invariants). -/
def storeWF (a : AnnotationStore) : Bool :=
  a.all (fun kv => !kv.2.isEmpty)

/-- Modelled from the spec: the Metabolite record (section 3). -/
structure Metabolite where
  id : String
  compartment : String
  name : Option String := none
  formula : Option String := none
  charge : Option Int := none
  annotations : AnnotationStore := []
deriving DecidableEq

/-- Modelled from the spec: the gene-reaction Boolean rule, a tagged
expression tree whose leaves are gene identifiers and whose internal
nodes are AND/OR (sections 3 and 9). -/
inductive BoolRule where
  | gene : String → BoolRule
  | band : BoolRule → BoolRule → BoolRule
  | bor : BoolRule → BoolRule → BoolRule
deriving DecidableEq

/-- Modelled from the spec: the Reaction record (section 3): an ordered
mapping from metabolite identifiers to signed stoichiometric coefficients
(negative = reactant, positive = product), an optional gene-reaction
rule, and an Annotation Store. -/
structure Reaction where
  id : String
  name : Option String := none
  reversible : Bool := false
  lowerBound : Int := -1000
  upperBound : Int := 1000
  metabolites : List (String × Int) := []
  gpr : Option BoolRule := none
  annotations : AnnotationStore := []
deriving DecidableEq

/-- Modelled from the spec: the Gene record (section 3), with a free-text
notes mapping. -/
structure Gene where
  id : String
  name : Option String := none
  annotations : AnnotationStore := []
  notes : List (String × String) := []
deriving DecidableEq

/-- Modelled from the spec: the Model container (section 3): collections
of compartments, metabolites, reactions and genes in insertion order,
plus a model-level Annotation Store. -/
structure Model where
  id : String
  name : Option String := none
  compartments : List (String × Option String) := []
  metabolites : List Metabolite := []
  reactions : List Reaction := []
  genes : List Gene := []
  annotations : AnnotationStore := []
deriving DecidableEq

/-- Modelled from the spec: the error kinds of section 7. -/
inductive ModelError where
  | DuplicateIdentifier
  | UnknownCompartment
  | UnknownMetabolite
  | UnknownGene
  | MalformedIdentifier
  | ExportIdentifierCollision
  | MalformedBooleanRule
deriving DecidableEq

/-- Modelled from the spec: the permitted identifier alphabet of the
target grammar given in the notebook, letters, digits and underscore. -/
def allowedChar (c : Char) : Bool :=
  c.isAlpha || c.isDigit || c = '_'

/-- Modelled from the spec: export-time escaping of a character outside
the permitted identifier alphabet (section 4.4); the normalization is
explicitly not required to be reversible, so an offending character is
replaced by an underscore. -/
def escapeChar (c : Char) : Char :=
  if allowedChar c then c else '_'

/-- Modelled from the spec: escape every character of an identifier that
falls outside the permitted alphabet (section 4.4). -/
def escapeId (s : String) : String :=
  String.mk (s.data.map escapeChar)

/-- Modelled from the spec: export-time normalization of a metabolite
identifier, the entity-class tag `M_` followed by the escaped internal
identifier (section 4.4). -/
def normalizeMet (s : String) : String :=
  "M_" ++ escapeId s

/-- Modelled from the spec: export-time normalization of a reaction
identifier with the entity-class tag `R_` (section 4.4). -/
def normalizeRxn (s : String) : String :=
  "R_" ++ escapeId s

/-- Modelled from the spec: export-time normalization of a gene
identifier with the entity-class tag `G_` (section 4.4). -/
def normalizeGene (s : String) : String :=
  "G_" ++ escapeId s

/-- Modelled from the spec: the target identifier grammar
`[a-zA-Z_][a-zA-Z_0-9]*` stated in the notebook and in section 8. -/
def validSbmlId (s : String) : Bool :=
  match s.data with
  | [] => false
  | c :: cs => (c.isAlpha || c = '_') && cs.all allowedChar

/-- Modelled from the spec: the URI template
`https://identifiers.org/<key>/<value>` used for every cross-reference
entry of an exported annotation block (sections 4.5 and 6). -/
def identifiersOrgURI (k v : String) : String :=
  "https://identifiers.org/" ++ k ++ "/" ++ v

/-- Modelled from the spec: export of an Annotation Store as the ordered
sequence of cross-reference URIs, one per stored value, keys in insertion
order and values in stored order (sections 4.1 and 4.5). -/
def exportAnnotations (a : AnnotationStore) : List String :=
  a.flatMap (fun kv => kv.2.map (fun v => identifiersOrgURI kv.1 v))

/-- Modelled from the spec and the example output document: an exported
element carries a `meta_`-tagged metaid exactly when the entity has
annotation entries to attach. -/
def metaidOf (a : AnnotationStore) (nid : String) : Option String :=
  if a.isEmpty then none else some ("meta_" ++ nid)

/-- Modelled from the spec: the serializer derives the reactant list of a
reaction as the metabolites with negative stoichiometric coefficient, in
stored order (section 4.5, step 5). -/
def listOfReactants (r : Reaction) : List (String × Int) :=
  r.metabolites.filter (fun p => p.2 < 0)

/-- Modelled from the spec: the serializer derives the product list of a
reaction as the metabolites with positive stoichiometric coefficient, in
stored order (section 4.5, step 5). -/
def listOfProducts (r : Reaction) : List (String × Int) :=
  r.metabolites.filter (fun p => 0 < p.2)

/-- Modelled from the spec: leaves of an exported gene-product-association
subtree carry normalized gene identifiers (sections 4.4 and 4.5). -/
def normalizeRule : BoolRule → BoolRule
  | .gene g => .gene (normalizeGene g)
  | .band a b => .band (normalizeRule a) (normalizeRule b)
  | .bor a b => .bor (normalizeRule a) (normalizeRule b)

/-- Modelled from the spec: the gene identifiers recorded as appearing in
a rule, used by the reverse lookup (section 4.3). -/
def ruleGenes : BoolRule → List String
  | .gene g => [g]
  | .band a b => ruleGenes a ++ ruleGenes b
  | .bor a b => ruleGenes a ++ ruleGenes b

/-- Modelled from the spec: the gene identifiers appearing in a reaction's
rule, the empty list when no rule is set. -/
def ruleGenesOf (r : Reaction) : List String :=
  match r.gpr with
  | some rule => ruleGenes rule
  | none => []

/-- Modelled from the spec: a species reference of the exported document,
a normalized species identifier with a positive stoichiometry magnitude. -/
structure SpeciesRef where
  species : String
  stoichiometry : Int
deriving DecidableEq

/-- Modelled from the spec: the exported species element of a metabolite
(section 4.5, step 3). -/
structure SpeciesElement where
  metaid : Option String
  id : String
  name : Option String
  compartment : String
  charge : Option Int
  chemicalFormula : Option String
  cvTerms : List String
deriving DecidableEq

/-- Modelled from the spec: the exported reaction element (section 4.5,
step 5). -/
structure ReactionElement where
  metaid : Option String
  id : String
  name : Option String
  reversible : Bool
  reactants : List SpeciesRef
  products : List SpeciesRef
  cvTerms : List String
  geneProductAssociation : Option BoolRule
deriving DecidableEq

/-- Modelled from the spec: the exported gene-product element (section
4.5, step 6); its name defaults to the normalized identifier when the
gene has none, as the example output document shows. -/
structure GeneProductElement where
  metaid : Option String
  id : String
  name : String
  label : String
  notes : List (String × String)
  cvTerms : List String
deriving DecidableEq

/-- Modelled from the spec: the exported document, elements in the fixed
top-level order of section 6. -/
structure SBMLDocument where
  modelMetaid : Option String
  modelId : String
  modelName : Option String
  modelCVTerms : List String
  compartments : List (String × Option String)
  species : List SpeciesElement
  parameters : List String
  reactions : List ReactionElement
  geneProducts : List GeneProductElement
deriving DecidableEq

/-- Modelled from the spec: serialize one metabolite as a species element
(section 4.5, step 3). -/
def serializeSpecies (m : Metabolite) : SpeciesElement :=
  { metaid := metaidOf m.annotations (normalizeMet m.id)
    id := normalizeMet m.id
    name := m.name
    compartment := m.compartment
    charge := m.charge
    chemicalFormula := m.formula
    cvTerms := exportAnnotations m.annotations }

/-- Modelled from the spec: serialize one reaction, reactant and product
lists split by coefficient sign with positive magnitudes, and the rule
exported with normalized leaf identifiers (section 4.5, step 5). -/
def serializeReaction (r : Reaction) : ReactionElement :=
  { metaid := metaidOf r.annotations (normalizeRxn r.id)
    id := normalizeRxn r.id
    name := r.name
    reversible := r.reversible
    reactants := (listOfReactants r).map (fun p => ⟨normalizeMet p.1, -p.2⟩)
    products := (listOfProducts r).map (fun p => ⟨normalizeMet p.1, p.2⟩)
    cvTerms := exportAnnotations r.annotations
    geneProductAssociation := r.gpr.map normalizeRule }

/-- Modelled from the spec: serialize one gene as a gene-product element
(section 4.5, step 6). -/
def serializeGene (g : Gene) : GeneProductElement :=
  { metaid := metaidOf g.annotations (normalizeGene g.id)
    id := normalizeGene g.id
    name := g.name.getD (normalizeGene g.id)
    label := normalizeGene g.id
    notes := g.notes
    cvTerms := exportAnnotations g.annotations }

/-- Modelled from the spec: the shared flux-bound parameter identifiers
emitted once and reused across reactions (section 4.5, step 4), as in the
example output document. -/
def defaultParameters : List String :=
  ["cobra_default_lb", "cobra_default_ub", "cobra_0_bound", "minus_inf", "plus_inf"]

/-- Modelled from the spec: the serializer, a pure traversal of the Model
in insertion order (section 4.5). -/
def serializeModel (M : Model) : SBMLDocument :=
  { modelMetaid := metaidOf M.annotations (escapeId M.id)
    modelId := escapeId M.id
    modelName := M.name
    modelCVTerms := exportAnnotations M.annotations
    compartments := M.compartments
    species := M.metabolites.map serializeSpecies
    parameters := defaultParameters
    reactions := M.reactions.map serializeReaction
    geneProducts := M.genes.map serializeGene }

/-- Modelled from the spec: the external identifiers produced by
normalization, one per entity, used for collision detection (section
4.4). -/
def externalIds (M : Model) : List String :=
  M.metabolites.map (fun m => normalizeMet m.id) ++
    M.reactions.map (fun r => normalizeRxn r.id) ++
      M.genes.map (fun g => normalizeGene g.id)

/-- Modelled from the spec: the deferred stoichiometry validation
re-checked at export time (section 4.3). -/
def stoichRefsValid (M : Model) : Bool :=
  M.reactions.all (fun r =>
    r.metabolites.all (fun p => M.metabolites.any (fun m => m.id = p.1)))

/-- Modelled from the spec: the export entry point; any deferred
validation failure is fatal and no document is emitted (sections 4.4 and
7).  Normalization collisions are reported as ExportIdentifierCollision. -/
def write_sbml_model (M : Model) : Except ModelError SBMLDocument :=
  if (externalIds M).Nodup then
    if stoichRefsValid M then .ok (serializeModel M)
    else .error .UnknownMetabolite
  else .error .ExportIdentifierCollision

/-- Modelled from the spec: add_compartment of the Model container
(section 4.3). -/
def add_compartment (M : Model) (cid : String) (cname : Option String) :
    Except ModelError Model :=
  if M.compartments.any (fun c => c.1 = cid) then .error .DuplicateIdentifier
  else .ok { M with compartments := M.compartments ++ [(cid, cname)] }

/-- Modelled from the spec: add_metabolite of the Model container; it
fails with DuplicateIdentifier on an identifier collision and with
UnknownCompartment when the metabolite's compartment is not registered
(section 4.3). -/
def add_metabolite (M : Model) (m : Metabolite) : Except ModelError Model :=
  if M.metabolites.any (fun x => x.id = m.id) then .error .DuplicateIdentifier
  else if M.compartments.any (fun c => c.1 = m.compartment) then
    .ok { M with metabolites := M.metabolites ++ [m] }
  else .error .UnknownCompartment

/-- Modelled from the spec: add_reaction of the Model container;
stoichiometry references are validated only at export (section 4.3). -/
def add_reaction (M : Model) (r : Reaction) : Except ModelError Model :=
  if M.reactions.any (fun x => x.id = r.id) then .error .DuplicateIdentifier
  else .ok { M with reactions := M.reactions ++ [r] }

/-- Modelled from the spec: add_gene of the Model container (section
4.3). -/
def add_gene (M : Model) (g : Gene) : Except ModelError Model :=
  if M.genes.any (fun x => x.id = g.id) then .error .DuplicateIdentifier
  else .ok { M with genes := M.genes ++ [g] }

/-- Modelled from the spec and the example output document: register in
the gene collection every listed gene identifier not already present,
with no name of its own. -/
def registerGenes : Model → List String → Model
  | M, [] => M
  | M, g :: gs =>
    if M.genes.any (fun x => x.id = g) then registerGenes M gs
    else
      registerGenes
        { M with genes := M.genes ++ [{ id := g, name := none, annotations := [], notes := [] }] } gs

/-- Modelled from the spec: cut a rule expression into word, opening and
closing bracket tokens. -/
def tokenizeAux : List Char → List Char → List String
  | [], acc => if acc.isEmpty then [] else [String.mk acc.reverse]
  | c :: rest, acc =>
    if c = ' ' then
      if acc.isEmpty then tokenizeAux rest []
      else String.mk acc.reverse :: tokenizeAux rest []
    else if c = '(' || c = ')' then
      (if acc.isEmpty then [] else [String.mk acc.reverse]) ++
        String.singleton c :: tokenizeAux rest []
    else tokenizeAux rest (c :: acc)

/-- Modelled from the spec: tokenizer for gene-reaction rule expressions
(section 4.3). -/
def tokenize (s : String) : List String :=
  tokenizeAux s.data []

mutual

/-- Modelled from the spec: read one rule atom, a gene identifier or a
parenthesized expression (section 4.3). -/
def parseAtomE : Nat → List String → Option (BoolRule × List String)
  | 0, _ => none
  | fuel + 1, ts =>
    match ts with
    | [] => none
    | "(" :: rest =>
      match parseOrE fuel rest with
      | some (r, ")" :: rest2) => some (r, rest2)
      | _ => none
    | t :: rest =>
      if t = ")" || t = "and" || t = "or" then none
      else some (.gene t, rest)

/-- Modelled from the spec: read a conjunction of atoms (section 4.3). -/
def parseAndE : Nat → List String → Option (BoolRule × List String)
  | 0, _ => none
  | fuel + 1, ts =>
    match parseAtomE fuel ts with
    | some (l, rest) => parseAndRest fuel l rest
    | none => none

/-- Modelled from the spec: continue a conjunction after its first
conjunct. -/
def parseAndRest : Nat → BoolRule → List String → Option (BoolRule × List String)
  | 0, _, _ => none
  | fuel + 1, acc, ts =>
    match ts with
    | "and" :: rest =>
      match parseAtomE fuel rest with
      | some (r, rest2) => parseAndRest fuel (.band acc r) rest2
      | none => none
    | _ => some (acc, ts)

/-- Modelled from the spec: read a disjunction of conjunctions (section
4.3). -/
def parseOrE : Nat → List String → Option (BoolRule × List String)
  | 0, _ => none
  | fuel + 1, ts =>
    match parseAndE fuel ts with
    | some (l, rest) => parseOrRest fuel l rest
    | none => none

/-- Modelled from the spec: continue a disjunction after its first
disjunct. -/
def parseOrRest : Nat → BoolRule → List String → Option (BoolRule × List String)
  | 0, _, _ => none
  | fuel + 1, acc, ts =>
    match ts with
    | "or" :: rest =>
      match parseAndE fuel rest with
      | some (r, rest2) => parseOrRest fuel (.bor acc r) rest2
      | none => none
    | _ => some (acc, ts)

end

/-- Modelled from the spec: parse a Boolean gene-reaction rule expression
over gene identifiers with AND/OR operators, optionally parenthesized
(section 4.3); none signals a malformed expression. -/
def parseGPR (expr : String) : Option BoolRule :=
  let ts := tokenize expr
  match parseOrE (5 * ts.length + 5) ts with
  | some (r, []) => some r
  | _ => none

/-- Modelled from the spec and the example output document:
set_gene_reaction_rule parses the expression, stores the expression tree
on the addressed reaction and registers every referenced gene identifier
not yet present in the gene collection, as the example output document
shows for a gene that was only ever mentioned in a rule (section 4.3). -/
def set_gene_reaction_rule (M : Model) (rid expr : String) :
    Except ModelError Model :=
  match parseGPR expr with
  | none => .error .MalformedBooleanRule
  | some rule =>
    let M1 : Model :=
      { M with
        reactions := M.reactions.map (fun r =>
          if r.id = rid then { r with gpr := some rule } else r) }
    .ok (registerGenes M1 (ruleGenes rule))

/-- Modelled from the spec: the gene-to-reactions reverse index, derived
by recomputation from the current rules (section 4.3). -/
def geneReactions (M : Model) (g : String) : List String :=
  (M.reactions.filter (fun r => (ruleGenesOf r).any (fun x => x = g))).map
    (fun r => r.id)

/-- Modelled from the spec: every gene identifier appearing in any
reaction's rule resolves to a gene present in the Model (section 3,
invariants). -/
def gprGenesResolved (M : Model) : Bool :=
  M.reactions.all (fun r =>
    (ruleGenesOf r).all (fun g => M.genes.any (fun x => x.id = g)))

/-- Modelled from the spec: the scenario model of section 8, built
through the container operations in the order of the notebook: one
compartment c, the five metabolites, the reversible PFK reaction and its
gene-reaction rule. -/
def pfkBuild : Except ModelError Model := do
  let M0 : Model := { id := "minimal", name := some "Minimal Demo Model" }
  let M1 ← add_compartment M0 "c" (some "cytosol")
  let M2 ← add_metabolite M1 { id := "atp_c", compartment := "c" }
  let M3 ← add_metabolite M2 { id := "f6p_c", compartment := "c" }
  let M4 ← add_metabolite M3 { id := "adp_c", compartment := "c" }
  let M5 ← add_metabolite M4 { id := "fdp_c", compartment := "c" }
  let M6 ← add_metabolite M5 { id := "h_c", compartment := "c" }
  let M7 ← add_reaction M6
    { id := "PFK", name := some "phosphofructokinase", reversible := true,
      metabolites :=
        [("atp_c", -1), ("f6p_c", -1), ("adp_c", 1), ("fdp_c", 1), ("h_c", 1)] }
  set_gene_reaction_rule M7 "PFK" "PF3D7_1128300 or PF3D7_0915400"

/-- Modelled from the spec: a model whose two internal metabolite
identifiers are collapsed to one external identifier by the escape step. -/
def collisionModel : Model :=
  { id := "demo",
    compartments := [("c", none)],
    metabolites :=
      [{ id := "a!b", compartment := "c" }, { id := "a?b", compartment := "c" }] }

/-- Modelled from the spec: a demonstration model whose single reaction
carries the tutorial's two-isozyme rule, for exercising the reverse
index. -/
def idxDemoModel : Model :=
  { id := "demo",
    reactions :=
      [{ id := "PFK",
         gpr := some (.bor (.gene "PF3D7_1128300") (.gene "PF3D7_0915400")) }] }

/-- Modelled from the spec: a demonstration model with one bare reaction
and no genes, before any rule assignment. -/
def gprDemoModel : Model :=
  { id := "demo", reactions := [{ id := "PFK" }] }

/-- Modelled from the spec: the demonstration model after assigning the
tutorial's rule, for exercising implicit gene registration. -/
def gprDemoAfter : Model :=
  match set_gene_reaction_rule gprDemoModel "PFK" "PF3D7_1128300 or PF3D7_0915400" with
  | .ok M => M
  | .error _ => gprDemoModel

theorem allowedChar_escapeChar (c : Char) : allowedChar (escapeChar c) = true := by
  unfold escapeChar
  split
  · assumption
  · decide

theorem all_allowedChar_map_escapeChar (l : List Char) :
    (l.map escapeChar).all allowedChar = true := by
  induction l with
  | nil => rfl
  | cons c cs ih => simp [List.all_cons, allowedChar_escapeChar, ih]

theorem data_normalizeMet (s : String) :
    (normalizeMet s).data = 'M' :: '_' :: s.data.map escapeChar := rfl

theorem data_normalizeRxn (s : String) :
    (normalizeRxn s).data = 'R' :: '_' :: s.data.map escapeChar := rfl

theorem data_normalizeGene (s : String) :
    (normalizeGene s).data = 'G' :: '_' :: s.data.map escapeChar := rfl

theorem validSbmlId_mk (c : Char) (cs : List Char)
    (h1 : (c.isAlpha || c = '_') = true) (h2 : cs.all allowedChar = true) :
    validSbmlId (String.mk (c :: cs)) = true := by
  show ((c.isAlpha || c = '_') && cs.all allowedChar) = true
  rw [h1, h2]
  rfl

/-- C2: export-time identifier normalization applies the entity-class tag
`M_` to metabolite identifiers, `R_` to reaction identifiers and `G_` to
gene identifiers, each followed by the escaped internal identifier; in
particular a metabolite identifier that starts with a digit normalizes to
an identifier satisfying the grammar `[a-zA-Z_][a-zA-Z_0-9]*`.  The
internal identifiers themselves are untouched, normalization being a pure
function applied only at export. -/
theorem export_id_normalization (m : Metabolite) (r : Reaction) (g : Gene)
    (c : Char) (_hc : m.id.data.head? = some c) (_hd : c.isDigit = true) :
    (normalizeMet m.id).data = 'M' :: '_' :: m.id.data.map escapeChar ∧
    (normalizeRxn r.id).data = 'R' :: '_' :: r.id.data.map escapeChar ∧
    (normalizeGene g.id).data = 'G' :: '_' :: g.id.data.map escapeChar ∧
    validSbmlId (normalizeMet m.id) = true := by
  refine ⟨data_normalizeMet m.id, data_normalizeRxn r.id, data_normalizeGene g.id, ?_⟩
  have h2 : ('_' :: m.id.data.map escapeChar).all allowedChar = true := by
    rw [List.all_cons, all_allowedChar_map_escapeChar]
    decide
  exact validSbmlId_mk 'M' ('_' :: m.id.data.map escapeChar) (by decide) h2

/-- C2 witness: the notebook's digit-leading metabolite identifier
`1ddecg3p_c` normalizes to a grammar-conforming exported identifier. -/
theorem export_id_normalization_witness :
    validSbmlId (normalizeMet "1ddecg3p_c") = true :=
  (export_id_normalization { id := "1ddecg3p_c", compartment := "c" }
    { id := "PFK" } { id := "PF3D7_1128300" } '1' rfl (by decide)).2.2.2

/-- C3: for an Annotation Store entry with key k and stored values vs,
export produces exactly one cross-reference URI of the form
`https://identifiers.org/k/v` per stored value, in stored value order,
the block of the entry sitting between the blocks of the surrounding
entries. -/
theorem annotation_export_uris (pre post : AnnotationStore) (k : String)
    (vs : List String) :
    exportAnnotations (pre ++ (k, vs) :: post) =
      exportAnnotations pre ++ vs.map (fun v => identifiersOrgURI k v) ++
        exportAnnotations post ∧
    (vs.map (fun v => identifiersOrgURI k v)).length = vs.length ∧
    ∀ v : String, identifiersOrgURI k v = "https://identifiers.org/" ++ k ++ "/" ++ v := by
  refine ⟨?_, List.length_map _ _, fun v => rfl⟩
  simp [exportAnnotations, List.append_assoc]

theorem countP_eq_one_of_nodup_mem {α : Type} [DecidableEq α] {l : List α} {a : α}
    (hnd : l.Nodup) (ha : a ∈ l) : l.countP (fun x => x = a) = 1 := by
  induction l with
  | nil => cases ha
  | cons b bs ih =>
    rw [List.countP_cons]
    rcases List.nodup_cons.mp hnd with ⟨hb, hbs⟩
    rcases List.mem_cons.mp ha with rfl | hmem
    · have h0 : bs.countP (fun x => x = a) = 0 :=
        List.countP_eq_zero.mpr (fun x hx => by
          simp only [decide_eq_true_eq]
          exact fun h => hb (h ▸ hx))
      simp [h0]
    · have hba : b ≠ a := fun h => hb (h ▸ hmem)
      simp [ih hbs hmem, hba]

/-- C1: the serializer partitions a reaction's nonzero-stoichiometry
metabolites by coefficient sign: a metabolite entry with negative
coefficient appears exactly once in the derived reactant list and not in
the product list, one with positive coefficient exactly once in the
derived product list and not in the reactant list, and together the two
lists cover exactly the metabolites with nonzero stoichiometry; the
exported element's reactant and product lists are these lists with
normalized species identifiers and positive magnitudes. -/
theorem reaction_sign_partition (r : Reaction)
    (hnd : (r.metabolites.map Prod.fst).Nodup) :
    (∀ p ∈ r.metabolites, p.2 < 0 →
      (listOfReactants r).countP (fun q => q = p) = 1 ∧ p ∉ listOfProducts r) ∧
    (∀ p ∈ r.metabolites, 0 < p.2 →
      (listOfProducts r).countP (fun q => q = p) = 1 ∧ p ∉ listOfReactants r) ∧
    (∀ mid : String,
      (mid ∈ (listOfReactants r).map Prod.fst ∨
        mid ∈ (listOfProducts r).map Prod.fst) ↔
        ∃ c : Int, (mid, c) ∈ r.metabolites ∧ c ≠ 0) ∧
    (serializeReaction r).reactants =
      (listOfReactants r).map (fun p => ⟨normalizeMet p.1, -p.2⟩) ∧
    (serializeReaction r).products =
      (listOfProducts r).map (fun p => ⟨normalizeMet p.1, p.2⟩) := by
  have hnodup : r.metabolites.Nodup := List.Nodup.of_map _ hnd
  have hndR : (listOfReactants r).Nodup :=
    List.Nodup.sublist (List.filter_sublist _) hnodup
  have hndP : (listOfProducts r).Nodup :=
    List.Nodup.sublist (List.filter_sublist _) hnodup
  refine ⟨?_, ?_, ?_, rfl, rfl⟩
  · intro p hp hneg
    constructor
    · exact countP_eq_one_of_nodup_mem hndR
        (List.mem_filter.mpr ⟨hp, by simpa using hneg⟩)
    · intro hmem
      have := (List.mem_filter.mp hmem).2
      simp only [decide_eq_true_eq] at this
      omega
  · intro p hp hpos
    constructor
    · exact countP_eq_one_of_nodup_mem hndP
        (List.mem_filter.mpr ⟨hp, by simpa using hpos⟩)
    · intro hmem
      have := (List.mem_filter.mp hmem).2
      simp only [decide_eq_true_eq] at this
      omega
  · intro mid
    constructor
    · intro h
      rcases h with h | h
      · rcases List.mem_map.mp h with ⟨p, hpf, hfst⟩
        rcases List.mem_filter.mp hpf with ⟨hpm, hneg⟩
        simp only [decide_eq_true_eq] at hneg
        refine ⟨p.2, ?_, by omega⟩
        rcases p with ⟨a, b⟩
        cases hfst
        exact hpm
      · rcases List.mem_map.mp h with ⟨p, hpf, hfst⟩
        rcases List.mem_filter.mp hpf with ⟨hpm, hpos⟩
        simp only [decide_eq_true_eq] at hpos
        refine ⟨p.2, ?_, by omega⟩
        rcases p with ⟨a, b⟩
        cases hfst
        exact hpm
    · intro h
      rcases h with ⟨c, hmem, hne⟩
      rcases lt_trichotomy c 0 with hlt | hz | hgt
      · exact Or.inl (List.mem_map.mpr
          ⟨(mid, c), List.mem_filter.mpr ⟨hmem, by simpa using hlt⟩, rfl⟩)
      · exact absurd hz hne
      · exact Or.inr (List.mem_map.mpr
          ⟨(mid, c), List.mem_filter.mpr ⟨hmem, by simpa using hgt⟩, rfl⟩)

/-- C1 witness: the PFK reaction of the tutorial, with its two substrates
and three products. -/
theorem reaction_sign_partition_witness :
    (listOfReactants
      { id := "PFK",
        metabolites :=
          [("atp_c", -1), ("f6p_c", -1), ("adp_c", 1), ("fdp_c", 1), ("h_c", 1)] }).countP
      (fun q => q = ("atp_c", -1)) = 1 :=
  ((reaction_sign_partition
    { id := "PFK",
      metabolites :=
        [("atp_c", -1), ("f6p_c", -1), ("adp_c", 1), ("fdp_c", 1), ("h_c", 1)] }
    (by decide)).1 ("atp_c", -1) (by decide) (by decide)).1

/-- C5: the serializer is a deterministic pure function of the Model
state: serializing twice without intervening mutation yields the same
document, and the output order of species, reactions, gene products and
compartments follows the Model's insertion order. -/
theorem serialize_deterministic (M : Model) :
    write_sbml_model M = write_sbml_model M ∧
    (serializeModel M).species = M.metabolites.map serializeSpecies ∧
    (serializeModel M).reactions = M.reactions.map serializeReaction ∧
    (serializeModel M).geneProducts = M.genes.map serializeGene ∧
    (serializeModel M).compartments = M.compartments :=
  ⟨rfl, rfl, rfl, rfl, rfl⟩

/-- C4: exporting the section-8 scenario model, one compartment c, the
five metabolites, the reversible PFK reaction with substrates atp_c and
f6p_c and products adp_c, fdp_c and h_c, and the rule joining the two
isozyme genes with or, yields a reaction element with exactly 2
reactants, exactly 3 products, and a gene-product association that is a
single OR node over the two normalized gene identifiers. -/
theorem pfk_export_scenario :
    pfkBuild.map (fun M => (serializeModel M).reactions.map (fun e =>
      (e.reactants.length, e.products.length, e.geneProductAssociation))) =
    .ok [(2, 3, some (.bor (.gene "G_PF3D7_1128300") (.gene "G_PF3D7_0915400")))] := by
  rfl

/-- C6: adding a metabolite whose compartment reference does not resolve
to a registered compartment fails with UnknownCompartment, producing no
mutated model; an add can succeed only when the compartment is already
present, and then it only appends the metabolite. -/
theorem add_metabolite_unknown_compartment (M : Model) (m : Metabolite)
    (hid : M.metabolites.any (fun x => x.id = m.id) = false)
    (hc : M.compartments.any (fun c => c.1 = m.compartment) = false) :
    add_metabolite M m = .error .UnknownCompartment ∧
    (∀ M' : Model, add_metabolite M m ≠ .ok M') ∧
    (∀ (N : Model) (x : Metabolite) (N' : Model), add_metabolite N x = .ok N' →
      N.compartments.any (fun c => c.1 = x.compartment) = true ∧
      N' = { N with metabolites := N.metabolites ++ [x] }) := by
  have h1 : add_metabolite M m = .error .UnknownCompartment := by
    simp [add_metabolite, hid, hc]
  refine ⟨h1, ?_, ?_⟩
  · intro M' h
    rw [h1] at h
    cases h
  intro N x N' h
  unfold add_metabolite at h
  split at h
  · cases h
  · split at h
    · rename_i hcomp
      cases h
      exact ⟨hcomp, rfl⟩
    · cases h

/-- C6 witness: adding the tutorial's metabolite to a model with no
registered compartment fails with UnknownCompartment. -/
theorem add_metabolite_unknown_compartment_witness :
    add_metabolite { id := "minimal" } { id := "1ddecg3p_c", compartment := "c" } =
      .error .UnknownCompartment :=
  (add_metabolite_unknown_compartment { id := "minimal" }
    { id := "1ddecg3p_c", compartment := "c" } (by decide) (by decide)).1

/-- C8: when normalization maps two distinct entries of the external
identifier sequence to the same external identifier, the export call
fails with ExportIdentifierCollision and emits no document at all. -/
theorem export_collision_detected (M : Model) (i j : Nat)
    (hi : i < (externalIds M).length) (hj : j < (externalIds M).length)
    (hij : i ≠ j)
    (hcol : (externalIds M).get ⟨i, hi⟩ = (externalIds M).get ⟨j, hj⟩) :
    write_sbml_model M = .error .ExportIdentifierCollision ∧
    ∀ doc : SBMLDocument, write_sbml_model M ≠ .ok doc := by
  have hnd : ¬ (externalIds M).Nodup := by
    intro hnodup
    have h2 := (List.Nodup.get_inj_iff hnodup).mp hcol
    exact hij (congrArg Fin.val h2)
  have h1 : write_sbml_model M = .error .ExportIdentifierCollision := by
    unfold write_sbml_model
    rw [if_neg hnd]
  exact ⟨h1, fun doc h => by rw [h1] at h; cases h⟩

/-- C8 witness: the identifiers a!b and a?b both escape to a_b, and the
export call on a model holding both fails with
ExportIdentifierCollision. -/
theorem export_collision_detected_witness :
    write_sbml_model collisionModel = .error .ExportIdentifierCollision :=
  (export_collision_detected collisionModel 0 1 (by decide) (by decide)
    (by decide) (by decide)).1

theorem mem_geneReactions_iff (M : Model) (g q : String) :
    q ∈ geneReactions M g ↔ ∃ r ∈ M.reactions, r.id = q ∧ g ∈ ruleGenesOf r := by
  unfold geneReactions
  rw [List.mem_map]
  constructor
  · rintro ⟨r, hrf, rfl⟩
    rcases List.mem_filter.mp hrf with ⟨hr, hany⟩
    rcases List.any_eq_true.mp hany with ⟨x, hx, hxg⟩
    rw [decide_eq_true_eq] at hxg
    exact ⟨r, hr, rfl, hxg ▸ hx⟩
  · rintro ⟨r, hr, rfl, hg⟩
    exact ⟨r, List.mem_filter.mpr ⟨hr, List.any_eq_true.mpr ⟨g, hg, by simp⟩⟩, rfl⟩

/-- C7: the gene-to-reactions reverse index returns exactly the
identifiers of the reactions whose rule references the queried gene; in
particular, when exactly one reaction carries the queried identifier and
it is exactly the one whose rule mentions the gene, the lookup returns
that single reaction. -/
theorem gene_reverse_index (M : Model) (g rid : String)
    (h1 : ∀ r ∈ M.reactions, r.id = rid → g ∈ ruleGenesOf r)
    (h2 : ∀ r ∈ M.reactions, g ∈ ruleGenesOf r → r.id = rid)
    (h3 : M.reactions.countP (fun r => r.id = rid) = 1) :
    (∀ q : String, q ∈ geneReactions M g ↔
      ∃ r ∈ M.reactions, r.id = q ∧ g ∈ ruleGenesOf r) ∧
    geneReactions M g = [rid] := by
  refine ⟨fun q => mem_geneReactions_iff M g q, ?_⟩
  have hfc : M.reactions.filter (fun r => (ruleGenesOf r).any (fun x => x = g)) =
      M.reactions.filter (fun r => r.id = rid) := by
    apply List.filter_congr
    intro r hr
    rw [Bool.eq_iff_iff]
    constructor
    · intro hany
      rcases List.any_eq_true.mp hany with ⟨x, hx, hxg⟩
      rw [decide_eq_true_eq] at hxg
      rw [decide_eq_true_eq]
      exact h2 r hr (hxg ▸ hx)
    · intro hb
      rw [decide_eq_true_eq] at hb
      exact List.any_eq_true.mpr ⟨g, h1 r hr hb, by simp⟩
  unfold geneReactions
  rw [hfc]
  have hlen : (M.reactions.filter (fun r => decide (r.id = rid))).length = 1 := by
    rw [← List.countP_eq_length_filter]
    exact h3
  rcases List.length_eq_one.mp hlen with ⟨a, ha⟩
  have hmem : a ∈ M.reactions.filter (fun r => decide (r.id = rid)) := by
    rw [ha]
    exact List.mem_singleton_self a
  have hid : a.id = rid := by
    have h4 := (List.mem_filter.mp hmem).2
    rwa [decide_eq_true_eq] at h4
  rw [ha]
  simp [hid]

/-- C7 witness: in a model whose single reaction PFK carries the
two-isozyme rule, looking up the first isozyme returns exactly PFK. -/
theorem gene_reverse_index_witness :
    geneReactions idxDemoModel "PF3D7_1128300" = ["PFK"] :=
  (gene_reverse_index idxDemoModel "PF3D7_1128300" "PFK"
    (by decide) (by decide) (by decide)).2

theorem gprGenesResolved_iff (M : Model) :
    gprGenesResolved M = true ↔
      ∀ r ∈ M.reactions, ∀ g ∈ ruleGenesOf r, ∃ x ∈ M.genes, x.id = g := by
  unfold gprGenesResolved
  rw [List.all_eq_true]
  constructor
  · intro h r hr g hg
    have h5 := List.all_eq_true.mp (h r hr) g hg
    rcases List.any_eq_true.mp h5 with ⟨x, hx, hxg⟩
    rw [decide_eq_true_eq] at hxg
    exact ⟨x, hx, hxg⟩
  · intro h r hr
    rw [List.all_eq_true]
    intro g hg
    rcases h r hr g hg with ⟨x, hx, hxg⟩
    exact List.any_eq_true.mpr ⟨x, hx, by simp [hxg]⟩

theorem registerGenes_reactions (gs : List String) (N : Model) :
    (registerGenes N gs).reactions = N.reactions := by
  induction gs generalizing N with
  | nil => rfl
  | cons g gs ih =>
    unfold registerGenes
    split
    · exact ih N
    · exact ih _

theorem registerGenes_resolves (gs : List String) (N : Model) (g : String) :
    g ∈ gs ∨ (∃ x ∈ N.genes, x.id = g) →
      ∃ x ∈ (registerGenes N gs).genes, x.id = g := by
  induction gs generalizing N with
  | nil =>
    rintro (h | h)
    · cases h
    · exact h
  | cons g0 gs ih =>
    intro h
    unfold registerGenes
    split
    · rename_i hany
      rcases h with h | h
      · rcases List.mem_cons.mp h with rfl | hmem
        · rcases List.any_eq_true.mp hany with ⟨x, hx, hxg⟩
          rw [decide_eq_true_eq] at hxg
          exact ih N (Or.inr ⟨x, hx, hxg⟩)
        · exact ih N (Or.inl hmem)
      · exact ih N (Or.inr h)
    · rcases h with h | h
      · rcases List.mem_cons.mp h with rfl | hmem
        · exact ih _ (Or.inr ⟨{ id := g, name := none, annotations := [], notes := [] },
            List.mem_append_right _ (List.mem_singleton_self _), rfl⟩)
        · exact ih _ (Or.inl hmem)
      · rcases h with ⟨x, hx, hxg⟩
        exact ih _ (Or.inr ⟨x, List.mem_append_left _ hx, hxg⟩)

/-- C9: assigning a gene-reaction rule registers every gene identifier
referenced by the rule that is not yet present in the gene collection,
so a model in which every rule gene resolves keeps that property across
any rule assignment; every registered gene receives a gene-product
element on export, and a gene created implicitly, having no name of its
own, is exported with its name equal to its normalized identifier. -/
theorem rule_assignment_registers_genes (M : Model) (rid expr : String)
    (M' : Model) (hres : gprGenesResolved M = true)
    (hok : set_gene_reaction_rule M rid expr = .ok M') :
    gprGenesResolved M' = true ∧
    (serializeModel M').geneProducts = M'.genes.map serializeGene ∧
    (∀ gid : String,
      serializeGene { id := gid, name := none, annotations := [], notes := [] } =
        { metaid := none, id := normalizeGene gid, name := normalizeGene gid,
          label := normalizeGene gid, notes := [], cvTerms := [] }) := by
  unfold set_gene_reaction_rule at hok
  cases hp : parseGPR expr with
  | none =>
    rw [hp] at hok
    cases hok
  | some rule =>
    rw [hp] at hok
    cases hok
    refine ⟨?_, rfl, fun gid => rfl⟩
    rw [gprGenesResolved_iff] at hres ⊢
    intro r hr g hg
    rw [registerGenes_reactions] at hr
    rcases List.mem_map.mp hr with ⟨r0, hr0, rfl⟩
    by_cases hid : r0.id = rid
    · rw [if_pos hid] at hg
      have hg2 : g ∈ ruleGenes rule := hg
      exact registerGenes_resolves (ruleGenes rule) _ g (Or.inl hg2)
    · rw [if_neg hid] at hg
      rcases hres r0 hr0 g hg with ⟨x, hx, hxg⟩
      exact registerGenes_resolves (ruleGenes rule) _ g (Or.inr ⟨x, hx, hxg⟩)

/-- C9 witness: assigning the tutorial's rule to a model holding only
the bare PFK reaction leaves every rule gene resolved, the two isozyme
genes having been registered implicitly. -/
theorem rule_assignment_registers_genes_witness :
    gprGenesResolved gprDemoAfter = true :=
  (rule_assignment_registers_genes gprDemoModel "PFK"
    "PF3D7_1128300 or PF3D7_0915400" gprDemoAfter (by decide) (by rfl)).1

theorem metaidOf_spec (a : AnnotationStore) (nid : String) (h : storeWF a = true) :
    ((metaidOf a nid = some ("meta_" ++ nid) ∧ exportAnnotations a ≠ []) ↔ a ≠ []) ∧
    ((metaidOf a nid = none ∧ exportAnnotations a = []) ↔ a = []) := by
  cases a with
  | nil =>
    constructor
    · simp [metaidOf, exportAnnotations]
    · simp [metaidOf, exportAnnotations]
  | cons kv t =>
    have hvs : kv.2 ≠ [] := by
      have h6 := List.all_eq_true.mp h kv (List.mem_cons_self kv t)
      simp only [Bool.not_eq_true'] at h6
      intro hnil
      rw [hnil] at h6
      cases h6
    have hexp : exportAnnotations (kv :: t) ≠ [] := by
      rcases kv with ⟨k, vs⟩
      cases vs with
      | nil => exact absurd rfl hvs
      | cons v vs2 =>
        intro heq
        simp [exportAnnotations] at heq
    constructor
    · constructor
      · intro _
        exact List.cons_ne_nil kv t
      · intro _
        exact ⟨by simp [metaidOf], hexp⟩
    · constructor
      · rintro ⟨hm, he⟩
        exact absurd he hexp
      · intro h0
        exact absurd h0 (List.cons_ne_nil kv t)

/-- C10: a serialized entity, model, species, reaction or gene product,
carries the metaid `meta_` followed by its normalized identifier
together with a non-empty annotation block exactly when its Annotation
Store is non-empty, and carries neither metaid nor annotation entries
exactly when its store is empty. -/
theorem metaid_iff_annotations (m : Metabolite) (r : Reaction) (g : Gene)
    (M : Model) (hm : storeWF m.annotations = true)
    (hr : storeWF r.annotations = true) (hg : storeWF g.annotations = true)
    (hM : storeWF M.annotations = true) :
    (((serializeSpecies m).metaid = some ("meta_" ++ normalizeMet m.id) ∧
      (serializeSpecies m).cvTerms ≠ []) ↔ m.annotations ≠ []) ∧
    (((serializeSpecies m).metaid = none ∧ (serializeSpecies m).cvTerms = []) ↔
      m.annotations = []) ∧
    (((serializeReaction r).metaid = some ("meta_" ++ normalizeRxn r.id) ∧
      (serializeReaction r).cvTerms ≠ []) ↔ r.annotations ≠ []) ∧
    (((serializeReaction r).metaid = none ∧ (serializeReaction r).cvTerms = []) ↔
      r.annotations = []) ∧
    (((serializeGene g).metaid = some ("meta_" ++ normalizeGene g.id) ∧
      (serializeGene g).cvTerms ≠ []) ↔ g.annotations ≠ []) ∧
    (((serializeGene g).metaid = none ∧ (serializeGene g).cvTerms = []) ↔
      g.annotations = []) ∧
    (((serializeModel M).modelMetaid = some ("meta_" ++ escapeId M.id) ∧
      (serializeModel M).modelCVTerms ≠ []) ↔ M.annotations ≠ []) ∧
    (((serializeModel M).modelMetaid = none ∧
      (serializeModel M).modelCVTerms = []) ↔ M.annotations = []) :=
  ⟨(metaidOf_spec m.annotations (normalizeMet m.id) hm).1,
   (metaidOf_spec m.annotations (normalizeMet m.id) hm).2,
   (metaidOf_spec r.annotations (normalizeRxn r.id) hr).1,
   (metaidOf_spec r.annotations (normalizeRxn r.id) hr).2,
   (metaidOf_spec g.annotations (normalizeGene g.id) hg).1,
   (metaidOf_spec g.annotations (normalizeGene g.id) hg).2,
   (metaidOf_spec M.annotations (escapeId M.id) hM).1,
   (metaidOf_spec M.annotations (escapeId M.id) hM).2⟩

/-- C10 witness: a bare metabolite of the tutorial with no annotation
entries is exported with no metaid. -/
theorem metaid_iff_annotations_witness :
    (serializeSpecies { id := "adp_c", compartment := "c" }).metaid = none :=
  ((metaid_iff_annotations { id := "adp_c", compartment := "c" }
      { id := "PFK" } { id := "PF3D7_0915400" } { id := "minimal" }
      (by decide) (by decide) (by decide) (by decide)).2.1.mpr rfl).1

end ReconSpec
